import Mathlib

/-!
Verification of the Multiblast scheduling/simulation engine
(src/engine/simulate.ts), shallowly embedded in Lean 4.

Times and counts are embedded as `Int` (JS numbers used as integer
minutes), metres as `ℚ` (exact arithmetic).  Fallible code
(`validateScenario`, `runEngine`) is embedded as `Except String`.
The per-heading mutable state of the TypeScript engine is threaded
explicitly.
-/

/- ==================== Data model (src/models/defaultScenario.ts) ==================== -/

inductive BlastTiming where
  | midshift
  | endOfShift
deriving DecidableEq

structure Resources where
  drillRigs : Int
  lhds : Int
  supportCrews : Int
  blastCrews : Int
deriving DecidableEq

structure ShiftConfig where
  shiftDurationMin : Int
  blastTiming : BlastTiming
  scheduledShiftMin : Option Int
deriving DecidableEq

structure Durations where
  drill : Int
  charge : Int
  muck : Int
  support : Option Int
deriving DecidableEq

structure SupportConfig where
  jumboBolting : Bool
deriving DecidableEq

structure Scenario where
  simDays : Int
  tickMin : Int
  headings : Int
  metresPerRound : ℚ
  shift : ShiftConfig
  durations : Durations
  resources : Option Resources
  support : Option SupportConfig
deriving DecidableEq

/- ==================== Engine types (src/engine/simulate.ts) ==================== -/

inductive ResourceKey where
  | drillRigs
  | lhds
  | supportCrews
  | blastCrews
deriving DecidableEq

inductive GanttStage where
  | DRILL
  | CHARGE
  | BLAST_READY
  | REENTRY
  | WAITING_FOR_BLAST
  | MUCK
  | SUPPORT
  | WAITING_FOR_RESOURCE
deriving DecidableEq

structure HeadingState where
  id : Nat
  stage : GanttStage
  remainingMin : Int
  busyMin : Int
  roundsCompleted : Int
  metresAdvanced : ℚ
deriving DecidableEq

structure GanttInterval where
  headingId : Nat
  stage : GanttStage
  startMin : Int
  endMin : Int
  waitFor : Option ResourceKey
deriving DecidableEq

structure SimulationKpis where
  simDays : Int
  roundsCompletedTotal : Int
  roundsCompletedPerHeading : ℚ
  metresAdvancedTotal : ℚ
  metresAdvancedPerHeading : ℚ
  roundsPerDayTotal : ℚ
  metresPerDayTotal : ℚ
  headingUtilization : ℚ
deriving DecidableEq

structure RunResult where
  kpis : SimulationKpis
  simMinutes : Int
  intervals : List GanttInterval
deriving DecidableEq

structure ResourcePool where
  drillRigs : Int
  lhds : Int
  supportCrews : Int
  blastCrews : Int
deriving DecidableEq

def ResourcePool.get (p : ResourcePool) (k : ResourceKey) : Int :=
  match k with
  | .drillRigs => p.drillRigs
  | .lhds => p.lhds
  | .supportCrews => p.supportCrews
  | .blastCrews => p.blastCrews

def ResourcePool.dec (p : ResourcePool) (k : ResourceKey) : ResourcePool :=
  match k with
  | .drillRigs => { p with drillRigs := p.drillRigs - 1 }
  | .lhds => { p with lhds := p.lhds - 1 }
  | .supportCrews => { p with supportCrews := p.supportCrews - 1 }
  | .blastCrews => { p with blastCrews := p.blastCrews - 1 }

def REENTRY_MIN_MIDSHIFT : Int := 30

/- ==================== Helpers (simulate.ts bottom section) ==================== -/

/-- Fresh heading state; the source's string ids "H1", "H2", ... are
represented by the 1-based numbers 1, 2, ... (they are used only as
unique timeline keys). -/
def newHeading (id : Nat) (s : Scenario) : HeadingState :=
  { id := id
    stage := .DRILL
    remainingMin := s.durations.drill
    busyMin := 0
    roundsCompleted := 0
    metresAdvanced := 0 }

def getScheduledShiftMin (s : Scenario) : Int :=
  match s.shift.scheduledShiftMin with
  | some v => if v ≤ 0 then s.shift.shiftDurationMin else v
  | none => s.shift.shiftDurationMin

structure ShiftBounds where
  shiftStart : Int
  workEnd : Int
  shiftEnd : Int
  sched : Int
  workable : Int
deriving DecidableEq

def shiftBoundaries (nowMin : Int) (s : Scenario) : ShiftBounds :=
  let sched := getScheduledShiftMin s
  let workable := max 0 (min sched s.shift.shiftDurationMin)
  let shiftStart := (Int.fdiv nowMin sched) * sched
  { shiftStart := shiftStart
    workEnd := shiftStart + workable
    shiftEnd := shiftStart + sched
    sched := sched
    workable := workable }

/- ==================== Resources ==================== -/

def clampNonNegInt (n : Int) : Int := max 0 n

def makeResourcePool (s : Scenario) : ResourcePool :=
  match s.resources with
  | some r =>
    { drillRigs := clampNonNegInt r.drillRigs
      lhds := clampNonNegInt r.lhds
      supportCrews := clampNonNegInt r.supportCrews
      blastCrews := clampNonNegInt r.blastCrews }
  | none =>
    { drillRigs := clampNonNegInt s.headings
      lhds := clampNonNegInt s.headings
      supportCrews := clampNonNegInt s.headings
      blastCrews := clampNonNegInt 1 }

def isJumboBoltingEnabled (s : Scenario) : Bool :=
  match s.support with
  | some c => c.jumboBolting
  | none => false

def resourceForWorkStage (stage : GanttStage) (s : Scenario) : Option ResourceKey :=
  match stage with
  | .DRILL => some .drillRigs
  | .CHARGE => some .blastCrews
  | .MUCK => some .lhds
  | .SUPPORT => if isJumboBoltingEnabled s then some .drillRigs else some .supportCrews
  | _ => none

/- ==================== Core simulation logic ==================== -/

def completeRound (h : HeadingState) (s : Scenario) : HeadingState :=
  { h with roundsCompleted := h.roundsCompleted + 1
           metresAdvanced := h.metresAdvanced + s.metresPerRound }

def onBlastReady (h : HeadingState) (nowMin tickMin : Int) (s : Scenario) : HeadingState :=
  match s.shift.blastTiming with
  | .midshift => { h with stage := .REENTRY, remainingMin := REENTRY_MIN_MIDSHIFT }
  | .endOfShift =>
    let b := shiftBoundaries nowMin s
    if nowMin ≥ b.workEnd then
      { h with stage := .WAITING_FOR_BLAST, remainingMin := max 0 (b.shiftEnd - (nowMin + tickMin)) }
    else
      let rem1 := if h.remainingMin ≤ 0 then max 0 (b.workEnd - nowMin) else max 0 (h.remainingMin - tickMin)
      if rem1 = 0 then
        { h with stage := .WAITING_FOR_BLAST, remainingMin := max 0 (b.shiftEnd - (nowMin + tickMin)) }
      else
        { h with remainingMin := rem1 }

/-- The shared REENTRY / WAITING_FOR_BLAST countdown block of
`advanceHeadingByTick` (both source branches are textually identical). -/
def gateToMuck (h : HeadingState) (tickMin : Int) (s : Scenario) : HeadingState :=
  let rem1 := if h.remainingMin > 0 then max 0 (h.remainingMin - tickMin) else h.remainingMin
  if rem1 = 0 then { h with stage := .MUCK, remainingMin := s.durations.muck }
  else { h with remainingMin := rem1 }

/-- The body of a work-stage tick once the required resource (if any) has
been acquired: busy time accrues, the timer decrements, and at zero the
heading transitions to the next stage. -/
def advanceWorkStage (h : HeadingState) (tickMin : Int) (s : Scenario) : HeadingState :=
  let h1 : HeadingState := { h with busyMin := h.busyMin + tickMin }
  let rem1 : Int := if h1.remainingMin > 0 then max 0 (h1.remainingMin - tickMin) else h1.remainingMin
  let h2 : HeadingState := { h1 with remainingMin := rem1 }
  if h2.remainingMin > 0 then h2
  else
    match h2.stage with
    | .DRILL => { h2 with stage := .CHARGE, remainingMin := s.durations.charge }
    | .CHARGE => { h2 with stage := .BLAST_READY, remainingMin := 0 }
    | .MUCK =>
      let sup := (s.durations.support).getD 0
      if sup > 0 then { h2 with stage := .SUPPORT, remainingMin := sup }
      else
        let h3 := completeRound h2 s
        { h3 with stage := .DRILL, remainingMin := s.durations.drill }
    | .SUPPORT =>
      let h3 := completeRound h2 s
      { h3 with stage := .DRILL, remainingMin := s.durations.drill }
    | _ => h2

def advanceHeadingByTick (h : HeadingState) (nowMin tickMin : Int) (s : Scenario)
    (avail : ResourcePool) : Bool × HeadingState × ResourcePool :=
  if h.stage = .BLAST_READY then (true, onBlastReady h nowMin tickMin s, avail)
  else if h.stage = .REENTRY then (true, gateToMuck h tickMin s, avail)
  else if h.stage = .WAITING_FOR_BLAST then (true, gateToMuck h tickMin s, avail)
  else
    match resourceForWorkStage h.stage s with
    | some k =>
      if avail.get k ≤ 0 then (false, h, avail)
      else (true, advanceWorkStage h tickMin s, avail.dec k)
    | none => (true, advanceWorkStage h tickMin s, avail)

/- ==================== Engine runner ==================== -/

structure OpenIv where
  stage : GanttStage
  startMin : Int
  waitFor : Option ResourceKey
deriving DecidableEq

/-- A heading together with its currently open timeline interval; the
source keeps the open intervals in a `Map` keyed by the (unique) heading
id, represented here per heading. -/
structure TickRec where
  h : HeadingState
  openIv : Option OpenIv
deriving DecidableEq

/-- The `closeAndOpen` timeline helper: when the displayed stage or the
awaited resource changed, the open interval is closed at
`nowMin + tickMin` and a new one opened there; otherwise the open
interval is kept. -/
def closeAndOpen (hid : Nat) (cur : OpenIv) (displayStage : GanttStage)
    (nextWaitFor : Option ResourceKey) (nowMin tickMin : Int) :
    Option OpenIv × List GanttInterval :=
  if displayStage ≠ cur.stage ∨ nextWaitFor ≠ cur.waitFor then
    (some { stage := displayStage, startMin := nowMin + tickMin, waitFor := nextWaitFor },
     [{ headingId := hid, stage := cur.stage, startMin := cur.startMin,
        endMin := nowMin + tickMin, waitFor := cur.waitFor }])
  else
    (some cur, [])

/-- One heading's share of one engine tick: attempt to advance, then
update the timeline bookkeeping (`openIfMissing` / `closeAndOpen`). -/
def processHeading (s : Scenario) (capture : Bool) (nowMin tickMin : Int)
    (r : TickRec) (avail : ResourcePool) : TickRec × ResourcePool × List GanttInterval :=
  let res := advanceHeadingByTick r.h nowMin tickMin s avail
  let progressed := res.1
  let h' := res.2.1
  let avail' := res.2.2
  let waitFor : Option ResourceKey :=
    if progressed then none else resourceForWorkStage r.h.stage s
  let displayStage : GanttStage :=
    if progressed then h'.stage
    else match waitFor with
      | some _ => .WAITING_FOR_RESOURCE
      | none => h'.stage
  let nextWaitFor : Option ResourceKey :=
    if displayStage = .WAITING_FOR_RESOURCE then waitFor else none
  if capture then
    let cur : OpenIv :=
      match r.openIv with
      | some o => o
      | none => { stage := h'.stage, startMin := nowMin, waitFor := none }
    let cap := closeAndOpen r.h.id cur displayStage nextWaitFor nowMin tickMin
    ({ h := h', openIv := cap.1 }, avail', cap.2)
  else
    ({ h := h', openIv := r.openIv }, avail', [])

/-- Process every heading once for the tick starting at `nowMin`,
threading the per-tick resource pool across headings in order. -/
def processRecs (s : Scenario) (capture : Bool) (nowMin tickMin : Int) :
    List TickRec → ResourcePool → List TickRec × ResourcePool × List GanttInterval
  | [], avail => ([], avail, [])
  | r :: rest, avail =>
    let step := processHeading s capture nowMin tickMin r avail
    let restRes := processRecs s capture nowMin tickMin rest step.2.1
    (step.1 :: restRes.1, restRes.2.1, step.2.2 ++ restRes.2.2)

/-- The main tick loop: `n` remaining ticks, `k` ticks already elapsed
(so the current clock is `k * tickMin`); each tick starts from a fresh
resource pool. -/
def runLoop (s : Scenario) (capture : Bool) : Nat → Nat → List TickRec → List TickRec × List GanttInterval
  | _, 0, recs => (recs, [])
  | k, Nat.succ n, recs =>
    let tickRes := processRecs s capture ((k : Int) * s.tickMin) s.tickMin recs (makeResourcePool s)
    let restRes := runLoop s capture (k + 1) n tickRes.1
    (restRes.1, tickRes.2.2 ++ restRes.2)

def simMinutesOf (s : Scenario) : Int := s.simDays * 24 * 60

/-- Number of iterations of `for (nowMin = 0; nowMin < simMinutes; nowMin += tickMin)`. -/
def numTicks (s : Scenario) : Nat :=
  ((simMinutesOf s).toNat + s.tickMin.toNat - 1) / s.tickMin.toNat

def initRecs (s : Scenario) (capture : Bool) : List TickRec :=
  (List.range s.headings.toNat).map fun i =>
    { h := newHeading (i + 1) s
      openIv := if capture then some { stage := (newHeading (i + 1) s).stage, startMin := 0, waitFor := none } else none }

def simCore (s : Scenario) (capture : Bool) : List TickRec × List GanttInterval :=
  runLoop s capture 0 (numTicks s) (initRecs s capture)

/-- Close every still-open interval at the end of the horizon. -/
def flushOpen (simMinutes : Int) (recs : List TickRec) : List GanttInterval :=
  recs.filterMap fun r =>
    r.openIv.map fun o =>
      { headingId := r.h.id, stage := o.stage, startMin := o.startMin,
        endMin := simMinutes, waitFor := o.waitFor }

def finalHeadings (s : Scenario) (capture : Bool) : List HeadingState :=
  (simCore s capture).1.map (fun r => r.h)

def engineIntervals (s : Scenario) (capture : Bool) : List GanttInterval :=
  (simCore s capture).2 ++ (if capture then flushOpen (simMinutesOf s) (simCore s capture).1 else [])

/- ==================== KPIs ==================== -/

def totalRounds (hs : List HeadingState) : Int := hs.foldl (fun a h => a + h.roundsCompleted) 0

def totalMetres (hs : List HeadingState) : ℚ := hs.foldl (fun a h => a + h.metresAdvanced) 0

def totalBusyMin (hs : List HeadingState) : Int := hs.foldl (fun a h => a + h.busyMin) 0

def computeKpis (hs : List HeadingState) (s : Scenario) (simMinutes : Int) : SimulationKpis :=
  { simDays := s.simDays
    roundsCompletedTotal := totalRounds hs
    roundsCompletedPerHeading := (totalRounds hs : ℚ) / (s.headings : ℚ)
    metresAdvancedTotal := totalMetres hs
    metresAdvancedPerHeading := totalMetres hs / (s.headings : ℚ)
    roundsPerDayTotal := (totalRounds hs : ℚ) / (s.simDays : ℚ)
    metresPerDayTotal := totalMetres hs / (s.simDays : ℚ)
    headingUtilization := (hs.foldl (fun a h => a + (h.busyMin : ℚ) / (simMinutes : ℚ)) 0) / (s.headings : ℚ) }

/- ==================== Validation & invariants ==================== -/

def checkResources (s : Scenario) : Except String Unit :=
  match s.resources with
  | some r =>
    if r.drillRigs < 0 then .error "resources.drillRigs must be >= 0"
    else if r.lhds < 0 then .error "resources.lhds must be >= 0"
    else if r.supportCrews < 0 then .error "resources.supportCrews must be >= 0"
    else if r.blastCrews < 0 then .error "resources.blastCrews must be >= 0"
    else .ok ()
  | none => .ok ()

/-- Pre-run validation.  Note that the source checks `drill`, `charge`
and `muck` only for being finite numbers (vacuous over `Int`): it does
not require them to be nonnegative.  The typed embedding makes the
missing-field and bad-enum checks of the source unrepresentable. -/
def validateScenario (s : Scenario) : Except String Unit :=
  if s.simDays ≤ 0 then .error "simDays must be > 0"
  else if s.tickMin ≤ 0 then .error "tickMin must be > 0"
  else if s.headings ≤ 0 then .error "headings must be > 0"
  else if s.metresPerRound ≤ 0 then .error "metresPerRound must be > 0"
  else if s.shift.shiftDurationMin ≤ 0 then .error "shift.shiftDurationMin must be > 0"
  else if getScheduledShiftMin s ≤ 0 then .error "scheduledShiftMin must be > 0 (via legacyOptions.hoursPerShift)"
  else if s.shift.shiftDurationMin > getScheduledShiftMin s then .error "shiftDurationMin cannot exceed scheduled shift length"
  else
    match s.durations.support with
    | some v =>
      if v < 0 then .error "durations.support must be >= 0 if provided"
      else checkResources s
    | none => checkResources s

def assertSimulationProgress (s : Scenario) (hs : List HeadingState) : Except String Unit :=
  if s.simDays ≥ 1 ∧ totalBusyMin hs = 0 then
    .error "Simulation produced zero work (deadlock: no resources available to perform any stage)."
  else .ok ()

/-- The legacy post-run check of src/App.tsx, which keys on completed
rounds rather than busy minutes. -/
def assertSimulationProgressLegacy (kpis : SimulationKpis) (s : Scenario) : Except String Unit :=
  if s.simDays ≥ 1 ∧ kpis.roundsCompletedTotal = 0 then
    .error "Simulation produced zero completed rounds (deadlock)."
  else .ok ()

def runEngine (s : Scenario) (capture : Bool) : Except String RunResult :=
  match validateScenario s with
  | .error e => .error e
  | .ok _ =>
    match assertSimulationProgress s (finalHeadings s capture) with
    | .error e => .error e
    | .ok _ =>
      .ok { kpis := computeKpis (finalHeadings s capture) s (simMinutesOf s)
            simMinutes := simMinutesOf s
            intervals := engineIntervals s capture }

def simulate (s : Scenario) : Except String SimulationKpis :=
  (runEngine s false).map (fun r => r.kpis)

def simulateDetailed (s : Scenario) : Except String RunResult := runEngine s true

/- ==================== Derived / specification-level definitions ==================== -/

/-- Intervals of the timeline belonging to one heading, in emission order. -/
def ivsFor (hid : Nat) (l : List GanttInterval) : List GanttInterval :=
  l.filter (fun iv => iv.headingId == hid)

/-- `spansExactly lo hi l`: the intervals of `l` are contiguous (each
interval starts where the previous one ended), non-overlapping
(each has `startMin ≤ endMin`), start at `lo` and end exactly at `hi`. -/
def spansExactly : Int → Int → List GanttInterval → Bool
  | lo, hi, [] => lo == hi
  | lo, hi, iv :: rest =>
    (iv.startMin == lo && decide (iv.startMin ≤ iv.endMin)) && spansExactly iv.endMin hi rest

/-- How many headings progress during one tick while holding a unit of
resource kind `k`, replaying the same pool threading as `processRecs`. -/
def holdersCount (s : Scenario) (nowMin tickMin : Int) :
    List TickRec → ResourcePool → ResourceKey → Nat
  | [], _, _ => 0
  | r :: rest, avail, k =>
    let step := advanceHeadingByTick r.h nowMin tickMin s avail
    (if step.1 = true ∧ resourceForWorkStage r.h.stage s = some k then 1 else 0)
      + holdersCount s nowMin tickMin rest step.2.2 k

def recsIds (recs : List TickRec) : List Nat := recs.map (fun r => r.h.id)

def emptyKpis : SimulationKpis :=
  { simDays := 0, roundsCompletedTotal := 0, roundsCompletedPerHeading := 0
    metresAdvancedTotal := 0, metresAdvancedPerHeading := 0
    roundsPerDayTotal := 0, metresPerDayTotal := 0, headingUtilization := 0 }

def emptyRunResult : RunResult := { kpis := emptyKpis, simMinutes := 0, intervals := [] }

/-- Timeline bookkeeping invariant for one heading: it has an open
interval whose start is at most `bound`, and the closed intervals
emitted so far for it chain contiguously from minute 0 up to exactly the
open interval's start. -/
def timelineInv (acc : List GanttInterval) (bound : Int) (r : TickRec) : Prop :=
  ∃ o : OpenIv, r.openIv = some o ∧ o.startMin ≤ bound ∧
    spansExactly 0 o.startMin (ivsFor r.h.id acc) = true

/- ==================== Concrete scenarios and states used in witnesses ==================== -/

/-- Spec section 8 reference scenario: 1 heading, drill=180, charge=60, muck=240,
support=0, metresPerRound=3, immediate blast policy, default (that is,
unconstrained for a single heading) resources, horizon = 1 day, tick = 60. -/
def s9 : Scenario :=
  { simDays := 1, tickMin := 60, headings := 1, metresPerRound := 3
    shift := { shiftDurationMin := 480, blastTiming := .midshift, scheduledShiftMin := none }
    durations := { drill := 180, charge := 60, muck := 240, support := some 0 }
    resources := none, support := none }

/-- A structurally valid scenario whose drill rig capacity is zero: no
stage can ever run, so the post-run deadlock check must fire. -/
def sDead : Scenario :=
  { simDays := 1, tickMin := 480, headings := 1, metresPerRound := 3
    shift := { shiftDurationMin := 480, blastTiming := .midshift, scheduledShiftMin := none }
    durations := { drill := 100, charge := 100, muck := 100, support := none }
    resources := some { drillRigs := 0, lhds := 1, supportCrews := 1, blastCrews := 1 }
    support := none }

/-- A scenario whose tick (1000) does not divide the horizon (1440) and
whose drill time (1500) forces a stage change on the final tick. -/
def sC8 : Scenario :=
  { simDays := 1, tickMin := 1000, headings := 1, metresPerRound := 3
    shift := { shiftDurationMin := 480, blastTiming := .midshift, scheduledShiftMin := none }
    durations := { drill := 1500, charge := 60, muck := 240, support := none }
    resources := none, support := none }

/-- A scenario with a negative drill duration; every other field is valid. -/
def sNegDrill : Scenario :=
  { simDays := 1, tickMin := 480, headings := 1, metresPerRound := 3
    shift := { shiftDurationMin := 480, blastTiming := .midshift, scheduledShiftMin := none }
    durations := { drill := -1, charge := 480, muck := 480, support := none }
    resources := none, support := none }

/-- A scenario with a negative optional support duration. -/
def sNegSupport : Scenario :=
  { simDays := 1, tickMin := 480, headings := 1, metresPerRound := 3
    shift := { shiftDurationMin := 480, blastTiming := .midshift, scheduledShiftMin := none }
    durations := { drill := 100, charge := 100, muck := 100, support := some (-1) }
    resources := none, support := none }

/-- Spec section 8 contention scenario: 2 headings sharing 1 drill rig, both in DRILL. -/
def s6 : Scenario :=
  { simDays := 1, tickMin := 5, headings := 2, metresPerRound := 3
    shift := { shiftDurationMin := 480, blastTiming := .midshift, scheduledShiftMin := none }
    durations := { drill := 180, charge := 60, muck := 240, support := none }
    resources := some { drillRigs := 1, lhds := 2, supportCrews := 2, blastCrews := 1 }
    support := none }

/-- An end-of-shift scenario with a 120-minute shift-change window. -/
def sEos : Scenario :=
  { simDays := 1, tickMin := 10, headings := 1, metresPerRound := 3
    shift := { shiftDurationMin := 480, blastTiming := .endOfShift, scheduledShiftMin := some 600 }
    durations := { drill := 180, charge := 60, muck := 240, support := none }
    resources := none, support := none }

/-- A scenario with the jumbo-bolting flag set. -/
def sJumbo : Scenario :=
  { simDays := 1, tickMin := 5, headings := 2, metresPerRound := 3
    shift := { shiftDurationMin := 480, blastTiming := .midshift, scheduledShiftMin := none }
    durations := { drill := 180, charge := 60, muck := 240, support := some 60 }
    resources := none, support := some { jumboBolting := true } }

def hBR : HeadingState :=
  { id := 1, stage := .BLAST_READY, remainingMin := 0, busyMin := 0
    roundsCompleted := 0, metresAdvanced := 0 }

def hRE : HeadingState :=
  { id := 1, stage := .REENTRY, remainingMin := 30, busyMin := 0
    roundsCompleted := 0, metresAdvanced := 0 }

def hWB : HeadingState :=
  { id := 1, stage := .WAITING_FOR_BLAST, remainingMin := 120, busyMin := 0
    roundsCompleted := 0, metresAdvanced := 0 }

def hDR : HeadingState :=
  { id := 1, stage := .DRILL, remainingMin := 180, busyMin := 0
    roundsCompleted := 0, metresAdvanced := 0 }

def pool0 : ResourcePool := { drillRigs := 0, lhds := 0, supportCrews := 0, blastCrews := 0 }

def pool1 : ResourcePool := { drillRigs := 1, lhds := 1, supportCrews := 1, blastCrews := 1 }

/-- The per-heading metres/rounds coupling: metres advanced so far is
exactly the number of completed rounds times the scenario's metres per
round. -/
def metresInv (s : Scenario) (h : HeadingState) : Prop :=
  h.metresAdvanced = (h.roundsCompleted : ℚ) * s.metresPerRound

/- ==================== Theorems ==================== -/

theorem completeRound_metresInv (s : Scenario) (h : HeadingState)
    (hinv : metresInv s h) : metresInv s (completeRound h s) := by
  unfold metresInv completeRound at *
  push_cast
  rw [hinv]
  ring

theorem onBlastReady_metresInv (s : Scenario) (h : HeadingState) (nowMin tickMin : Int)
    (hinv : metresInv s h) : metresInv s (onBlastReady h nowMin tickMin s) := by
  unfold metresInv onBlastReady at *
  dsimp only
  repeat' split
  all_goals exact hinv

theorem gateToMuck_metresInv (s : Scenario) (h : HeadingState) (tickMin : Int)
    (hinv : metresInv s h) : metresInv s (gateToMuck h tickMin s) := by
  unfold metresInv gateToMuck at *
  dsimp only
  repeat' split
  all_goals exact hinv

theorem advanceWorkStage_metresInv (s : Scenario) (h : HeadingState) (tickMin : Int)
    (hinv : metresInv s h) : metresInv s (advanceWorkStage h tickMin s) := by
  unfold advanceWorkStage
  dsimp only
  repeat' split
  all_goals first
    | exact hinv
    | exact completeRound_metresInv s _ hinv

theorem advanceHeadingByTick_metresInv (s : Scenario) (h : HeadingState)
    (nowMin tickMin : Int) (avail : ResourcePool) (hinv : metresInv s h) :
    metresInv s (advanceHeadingByTick h nowMin tickMin s avail).2.1 := by
  unfold advanceHeadingByTick
  repeat' split
  all_goals first
    | exact onBlastReady_metresInv s h nowMin tickMin hinv
    | exact gateToMuck_metresInv s h tickMin hinv
    | exact advanceWorkStage_metresInv s h tickMin hinv
    | exact hinv

theorem processHeading_h (s : Scenario) (capture : Bool) (nowMin tickMin : Int)
    (r : TickRec) (avail : ResourcePool) :
    (processHeading s capture nowMin tickMin r avail).1.h =
      (advanceHeadingByTick r.h nowMin tickMin s avail).2.1 := by
  unfold processHeading
  dsimp only
  repeat' split
  all_goals rfl

theorem processHeading_avail (s : Scenario) (capture : Bool) (nowMin tickMin : Int)
    (r : TickRec) (avail : ResourcePool) :
    (processHeading s capture nowMin tickMin r avail).2.1 =
      (advanceHeadingByTick r.h nowMin tickMin s avail).2.2 := by
  unfold processHeading
  dsimp only
  repeat' split
  all_goals rfl

theorem processRecs_metresInv (s : Scenario) (capture : Bool) (nowMin tickMin : Int) :
    ∀ (recs : List TickRec) (avail : ResourcePool),
      (∀ r ∈ recs, metresInv s r.h) →
      ∀ r' ∈ (processRecs s capture nowMin tickMin recs avail).1, metresInv s r'.h := by
  intro recs
  induction recs with
  | nil => intro avail _ r' hr'; simp [processRecs] at hr'
  | cons r rest ih =>
    intro avail hall r' hr'
    rw [processRecs] at hr'
    dsimp only at hr'
    rcases List.mem_cons.mp hr' with he | hm
    · subst he
      rw [processHeading_h]
      exact advanceHeadingByTick_metresInv s r.h nowMin tickMin avail (hall r (by simp))
    · exact ih _ (fun x hx => hall x (by simp [hx])) r' hm

theorem runLoop_metresInv (s : Scenario) (capture : Bool) :
    ∀ (n k : Nat) (recs : List TickRec),
      (∀ r ∈ recs, metresInv s r.h) →
      ∀ r' ∈ (runLoop s capture k n recs).1, metresInv s r'.h := by
  intro n
  induction n with
  | zero => intro k recs hall r' hr'; rw [runLoop] at hr'; exact hall r' hr'
  | succ n ih =>
    intro k recs hall r' hr'
    rw [runLoop] at hr'
    dsimp only at hr'
    exact ih (k + 1) _ (processRecs_metresInv s capture _ _ recs _ hall) r' hr'

theorem initRecs_metresInv (s : Scenario) (capture : Bool) :
    ∀ r ∈ initRecs s capture, metresInv s r.h := by
  intro r hr
  unfold initRecs at hr
  rcases List.mem_map.mp hr with ⟨i, _, he⟩
  subst he
  simp [metresInv, newHeading]

theorem finalHeadings_metresInv (s : Scenario) (capture : Bool) :
    ∀ h ∈ finalHeadings s capture, metresInv s h := by
  intro h hh
  unfold finalHeadings simCore at hh
  rcases List.mem_map.mp hh with ⟨r, hr, he⟩
  subst he
  exact runLoop_metresInv s capture (numTicks s) 0 (initRecs s capture)
    (initRecs_metresInv s capture) r hr

theorem totals_fold_metres (s : Scenario) :
    ∀ (hs : List HeadingState) (a : Int) (b : ℚ),
      b = (a : ℚ) * s.metresPerRound →
      (∀ h ∈ hs, metresInv s h) →
      hs.foldl (fun x h => x + h.metresAdvanced) b =
        ((hs.foldl (fun x h => x + h.roundsCompleted) a : Int) : ℚ) * s.metresPerRound := by
  intro hs
  induction hs with
  | nil => intro a b hb _; simpa using hb
  | cons h rest ih =>
    intro a b hb hall
    simp only [List.foldl_cons]
    refine ih (a + h.roundsCompleted) (b + h.metresAdvanced) ?_ (fun x hx => hall x (by simp [hx]))
    rw [hb, hall h (by simp)]
    push_cast
    ring

theorem computeKpis_metres (s : Scenario) (hs : List HeadingState) (simMinutes : Int)
    (hall : ∀ h ∈ hs, metresInv s h) :
    (computeKpis hs s simMinutes).metresAdvancedTotal =
      ((computeKpis hs s simMinutes).roundsCompletedTotal : ℚ) * s.metresPerRound := by
  unfold computeKpis totalMetres totalRounds
  dsimp only
  exact totals_fold_metres s hs 0 0 (by simp) hall

theorem runEngine_metres (s : Scenario) (capture : Bool) (res : RunResult)
    (hres : runEngine s capture = Except.ok res) :
    res.kpis.metresAdvancedTotal = (res.kpis.roundsCompletedTotal : ℚ) * s.metresPerRound := by
  unfold runEngine at hres
  split at hres
  · exact absurd hres (by simp)
  · split at hres
    · exact absurd hres (by simp)
    · rw [Except.ok.injEq] at hres
      subst hres
      exact computeKpis_metres s (finalHeadings s capture) (simMinutesOf s)
        (finalHeadings_metresInv s capture)

/-- C1: for every scenario accepted by the validator (that is, every run
on which the engine returns a KPI record), the returned KPIs satisfy
`metresAdvancedTotal = roundsCompletedTotal × metresPerRound` exactly;
likewise through the `simulate` entry point. -/
theorem c1_metres_eq_rounds_times_mpr (s : Scenario) (capture : Bool) (res : RunResult)
    (kpis : SimulationKpis)
    (hres : runEngine s capture = Except.ok res)
    (hk : simulate s = Except.ok kpis) :
    res.kpis.metresAdvancedTotal = (res.kpis.roundsCompletedTotal : ℚ) * s.metresPerRound ∧
    kpis.metresAdvancedTotal = (kpis.roundsCompletedTotal : ℚ) * s.metresPerRound := by
  constructor
  · exact runEngine_metres s capture res hres
  · unfold simulate at hk
    cases hrun : runEngine s false with
    | error e => rw [hrun] at hk; exact absurd hk (by simp [Except.map])
    | ok r =>
      rw [hrun] at hk
      simp only [Except.map, Except.ok.injEq] at hk
      subst hk
      exact runEngine_metres s false r hrun

set_option maxRecDepth 20000 in
/-- C1 witness: the invariant instantiated on the concrete reference run `s9`. -/
theorem c1_witness :
    ((runEngine s9 false).toOption.getD emptyRunResult).kpis.metresAdvancedTotal =
      (((runEngine s9 false).toOption.getD emptyRunResult).kpis.roundsCompletedTotal : ℚ) *
        s9.metresPerRound :=
  (c1_metres_eq_rounds_times_mpr s9 false _
      (((runEngine s9 false).toOption.getD emptyRunResult).kpis) (by rfl) (by rfl)).1

set_option maxRecDepth 20000 in
/-- C9: for the spec section 8 immediate-policy reference scenario (1 heading,
drill=180, charge=60, muck=240, support=0, metresPerRound=3, immediate
blast policy, default resources, horizon = 1 day), the engine returns
`roundsCompletedTotal = 2` and `metresAdvancedTotal = 6`. -/
theorem c9_reference_scenario_kpis :
    ((runEngine s9 false).toOption.getD emptyRunResult).kpis.roundsCompletedTotal = 2 ∧
    ((runEngine s9 false).toOption.getD emptyRunResult).kpis.metresAdvancedTotal = 6 := by
  have hr : ((runEngine s9 false).toOption.getD emptyRunResult).kpis.roundsCompletedTotal = 2 := by
    rfl
  refine ⟨hr, ?_⟩
  have hm := runEngine_metres s9 false ((runEngine s9 false).toOption.getD emptyRunResult) (by rfl)
  rw [hm, hr]
  norm_num [s9]

/-- C2 counterexample: under the immediate (midshift) policy a heading in
`BLAST_READY` fires even when zero blast-crew units are available — the
gate consumes and checks no resource — contradicting the claim that the
blast fires only when a blast crew unit is available. -/
theorem c2_counterexample :
    pool0.get ResourceKey.blastCrews = 0 ∧
    (advanceHeadingByTick hBR 0 60 s9 pool0).1 = true ∧
    (advanceHeadingByTick hBR 0 60 s9 pool0).2.1.stage = GanttStage.REENTRY := by
  exact ⟨rfl, rfl, rfl⟩

/-- C2 (amended): under the immediate (midshift) policy, a heading in
`BLAST_READY` fires unconditionally on the next tick — no blast-crew unit
is checked or consumed — transitioning instantaneously to a fixed
30-minute `REENTRY` stage, after which the heading transitions to `MUCK`
with MUCK's nominal duration. -/
theorem c2_amended_blast_fires_unconditionally (s : Scenario) (h : HeadingState)
    (nowMin tickMin : Int) (avail : ResourcePool)
    (hpol : s.shift.blastTiming = BlastTiming.midshift) :
    (h.stage = GanttStage.BLAST_READY →
      advanceHeadingByTick h nowMin tickMin s avail =
        (true, { h with stage := GanttStage.REENTRY, remainingMin := REENTRY_MIN_MIDSHIFT }, avail)) ∧
    REENTRY_MIN_MIDSHIFT = 30 ∧
    (h.stage = GanttStage.REENTRY → 0 ≤ h.remainingMin → h.remainingMin ≤ tickMin →
      advanceHeadingByTick h nowMin tickMin s avail =
        (true, { h with stage := GanttStage.MUCK, remainingMin := s.durations.muck }, avail)) ∧
    (h.stage = GanttStage.REENTRY → 0 < tickMin → tickMin < h.remainingMin →
      advanceHeadingByTick h nowMin tickMin s avail =
        (true, { h with remainingMin := h.remainingMin - tickMin }, avail)) := by
  refine ⟨?_, rfl, ?_, ?_⟩
  · intro h1
    simp [advanceHeadingByTick, h1, onBlastReady, hpol]
  · intro h1 h2 h3
    by_cases h4 : h.remainingMin > 0
    · have h5 : (0 : Int) ⊔ (h.remainingMin - tickMin) = 0 := max_eq_left (by omega)
      simp [advanceHeadingByTick, h1, gateToMuck, h4, h5]
    · have h5 : h.remainingMin = 0 := by omega
      simp [advanceHeadingByTick, h1, gateToMuck, h4, h5]
  · intro h1 h2 h3
    have h4 : h.remainingMin > 0 := by omega
    have h5 : (0 : Int) ⊔ (h.remainingMin - tickMin) = h.remainingMin - tickMin :=
      max_eq_right (by omega)
    have h6 : ¬(h.remainingMin - tickMin = 0) := by omega
    simp [advanceHeadingByTick, h1, gateToMuck, h4, h5, h6]

/-- C2 witness: the amended behaviour instantiated on a concrete
blast-ready heading with all resources free. -/
theorem c2_amended_witness :
    advanceHeadingByTick hBR 0 60 s9 pool1 =
      (true, { hBR with stage := GanttStage.REENTRY, remainingMin := REENTRY_MIN_MIDSHIFT }, pool1) :=
  (c2_amended_blast_fires_unconditionally s9 hBR 0 60 pool1 rfl).1 rfl

/-- C3: under the end-of-shift policy, a `BLAST_READY` heading counts
down in place to the workable-minutes boundary (`workEnd`) of the shift
containing the current time, then transitions to `WAITING_FOR_BLAST`
with a countdown to the scheduled shift boundary (`shiftEnd`), and when
that countdown expires it transitions directly to `MUCK` with MUCK's
nominal duration. -/
theorem c3_end_of_shift_blast_path (s : Scenario) (h : HeadingState)
    (nowMin tickMin : Int) (avail : ResourcePool)
    (hpol : s.shift.blastTiming = BlastTiming.endOfShift) :
    (h.stage = GanttStage.BLAST_READY → nowMin < (shiftBoundaries nowMin s).workEnd →
      h.remainingMin ≤ 0 →
      advanceHeadingByTick h nowMin tickMin s avail =
        (true, { h with remainingMin := (shiftBoundaries nowMin s).workEnd - nowMin }, avail)) ∧
    (h.stage = GanttStage.BLAST_READY → nowMin < (shiftBoundaries nowMin s).workEnd →
      0 < tickMin → tickMin < h.remainingMin →
      advanceHeadingByTick h nowMin tickMin s avail =
        (true, { h with remainingMin := h.remainingMin - tickMin }, avail)) ∧
    (h.stage = GanttStage.BLAST_READY → nowMin < (shiftBoundaries nowMin s).workEnd →
      0 < h.remainingMin → h.remainingMin ≤ tickMin →
      advanceHeadingByTick h nowMin tickMin s avail =
        (true, { h with
                  stage := GanttStage.WAITING_FOR_BLAST
                  remainingMin := max 0 ((shiftBoundaries nowMin s).shiftEnd - (nowMin + tickMin)) }, avail)) ∧
    (h.stage = GanttStage.BLAST_READY → (shiftBoundaries nowMin s).workEnd ≤ nowMin →
      advanceHeadingByTick h nowMin tickMin s avail =
        (true, { h with
                  stage := GanttStage.WAITING_FOR_BLAST
                  remainingMin := max 0 ((shiftBoundaries nowMin s).shiftEnd - (nowMin + tickMin)) }, avail)) ∧
    (h.stage = GanttStage.WAITING_FOR_BLAST → 0 ≤ h.remainingMin → h.remainingMin ≤ tickMin →
      advanceHeadingByTick h nowMin tickMin s avail =
        (true, { h with stage := GanttStage.MUCK, remainingMin := s.durations.muck }, avail)) ∧
    (h.stage = GanttStage.WAITING_FOR_BLAST → 0 < tickMin → tickMin < h.remainingMin →
      advanceHeadingByTick h nowMin tickMin s avail =
        (true, { h with remainingMin := h.remainingMin - tickMin }, avail)) := by
  refine ⟨?_, ?_, ?_, ?_, ?_, ?_⟩
  · intro h1 h2 h3
    have h4 : ¬(nowMin ≥ (shiftBoundaries nowMin s).workEnd) := by omega
    have h5 : (0 : Int) ⊔ ((shiftBoundaries nowMin s).workEnd - nowMin) =
        (shiftBoundaries nowMin s).workEnd - nowMin := max_eq_right (by omega)
    have h6 : ¬((shiftBoundaries nowMin s).workEnd - nowMin = 0) := by omega
    simp [advanceHeadingByTick, h1, onBlastReady, hpol, h3, h4, h5, h6]
  · intro h1 h2 h2' h3
    have h4 : ¬(nowMin ≥ (shiftBoundaries nowMin s).workEnd) := by omega
    have h3' : ¬(h.remainingMin ≤ 0) := by omega
    have h5 : (0 : Int) ⊔ (h.remainingMin - tickMin) = h.remainingMin - tickMin :=
      max_eq_right (by omega)
    have h6 : ¬(h.remainingMin - tickMin = 0) := by omega
    simp [advanceHeadingByTick, h1, onBlastReady, hpol, h3', h4, h5, h6]
  · intro h1 h2 h3 h3'
    have h4 : ¬(nowMin ≥ (shiftBoundaries nowMin s).workEnd) := by omega
    have h3'' : ¬(h.remainingMin ≤ 0) := by omega
    have h5 : (0 : Int) ⊔ (h.remainingMin - tickMin) = 0 := max_eq_left (by omega)
    simp [advanceHeadingByTick, h1, onBlastReady, hpol, h3'', h4, h5]
  · intro h1 h2
    have h4 : nowMin ≥ (shiftBoundaries nowMin s).workEnd := by omega
    simp [advanceHeadingByTick, h1, onBlastReady, hpol, h4]
  · intro h1 h2 h3
    by_cases h4 : h.remainingMin > 0
    · have h5 : (0 : Int) ⊔ (h.remainingMin - tickMin) = 0 := max_eq_left (by omega)
      simp [advanceHeadingByTick, h1, gateToMuck, h4, h5]
    · have h5 : h.remainingMin = 0 := by omega
      simp [advanceHeadingByTick, h1, gateToMuck, h4, h5]
  · intro h1 h2 h3
    have h4 : h.remainingMin > 0 := by omega
    have h5 : (0 : Int) ⊔ (h.remainingMin - tickMin) = h.remainingMin - tickMin :=
      max_eq_right (by omega)
    have h6 : ¬(h.remainingMin - tickMin = 0) := by omega
    simp [advanceHeadingByTick, h1, gateToMuck, h4, h5, h6]

/-- C3 witness: the hold-in-place countdown instantiated at minute 100 of
the concrete end-of-shift scenario (workEnd 480, shiftEnd 600): a freshly
blast-ready heading starts a 380-minute countdown to the shift-change
window. -/
theorem c3_witness :
    (100 : Int) < (shiftBoundaries 100 sEos).workEnd ∧
    advanceHeadingByTick hBR 100 10 sEos pool1 =
      (true, { hBR with remainingMin := (shiftBoundaries 100 sEos).workEnd - 100 }, pool1) :=
  ⟨by decide, (c3_end_of_shift_blast_path sEos hBR 100 10 pool1 rfl).1 rfl (by decide) (by decide)⟩

/-- C4 counterexample: a scenario with a negative drill duration violates
the §3 invariant "all durations ≥ 0", yet the validator accepts it and
the engine runs to completion and produces a KPI result — the validator
never range-checks drill, charge or muck. -/
theorem c4_counterexample :
    sNegDrill.durations.drill < 0 ∧
    validateScenario sNegDrill = Except.ok () ∧
    (runEngine sNegDrill false).toOption.isSome = true := by
  refine ⟨by decide, rfl, rfl⟩

/-- C4 (amended): when the validator rejects a scenario, the engine fails
fast with that same field-specific error and produces no KPI result; the
validator does reject a negative optional support duration (and negative
declared resource capacities), but negative drill, charge and muck
durations are not rejected. -/
theorem c4_amended_validation (s : Scenario) (capture : Bool) (m : String) (v : Int) :
    (validateScenario s = Except.error m → runEngine s capture = Except.error m) ∧
    (0 < s.simDays → 0 < s.tickMin → 0 < s.headings → 0 < s.metresPerRound →
      0 < s.shift.shiftDurationMin → s.shift.shiftDurationMin ≤ getScheduledShiftMin s →
      s.durations.support = some v → v < 0 →
      validateScenario s = Except.error "durations.support must be >= 0 if provided") := by
  constructor
  · intro hv
    simp [runEngine, hv]
  · intro h1 h2 h3 h4 h5 h6 h7 h8
    have e1 : ¬(s.simDays ≤ 0) := by omega
    have e2 : ¬(s.tickMin ≤ 0) := by omega
    have e3 : ¬(s.headings ≤ 0) := by omega
    have e4 : ¬(s.metresPerRound ≤ 0) := not_le.mpr h4
    have e5 : ¬(s.shift.shiftDurationMin ≤ 0) := by omega
    have e6 : ¬(getScheduledShiftMin s ≤ 0) := by omega
    have e7 : ¬(s.shift.shiftDurationMin > getScheduledShiftMin s) := by omega
    simp [validateScenario, e1, e2, e3, e4, e5, e6, e7, h7, h8]

/-- C4 witness: a negative support duration is rejected field-specifically
and the engine propagates the error, producing no result. -/
theorem c4_amended_witness :
    runEngine sNegSupport false = Except.error "durations.support must be >= 0 if provided" := by
  have hval :
      validateScenario sNegSupport = Except.error "durations.support must be >= 0 if provided" :=
    (c4_amended_validation sNegSupport false "" (-1)).2 (by decide) (by decide) (by decide)
      (by norm_num [sNegSupport]) (by decide) (by decide) rfl (by decide)
  exact (c4_amended_validation sNegSupport false
    "durations.support must be >= 0 if provided" (-1)).1 hval

/-- C5: for every validated scenario with horizon ≥ 1 day, the engine
raises the hard deadlock error exactly when the run accumulated zero
total busy-minutes across all headings, and returns the KPI result
normally when progress was made; the legacy variant (src/App.tsx) keys
the same check on zero completed rounds. -/
theorem c5_deadlock_detection (s : Scenario) (capture : Bool)
    (hval : validateScenario s = Except.ok ())
    (hday : 1 ≤ s.simDays) :
    (totalBusyMin (finalHeadings s capture) = 0 →
      runEngine s capture = Except.error "Simulation produced zero work (deadlock: no resources available to perform any stage).") ∧
    (totalBusyMin (finalHeadings s capture) ≠ 0 →
      runEngine s capture = Except.ok
        { kpis := computeKpis (finalHeadings s capture) s (simMinutesOf s)
          simMinutes := simMinutesOf s
          intervals := engineIntervals s capture }) ∧
    (∀ kpis : SimulationKpis, kpis.roundsCompletedTotal = 0 →
      assertSimulationProgressLegacy kpis s = Except.error "Simulation produced zero completed rounds (deadlock).") ∧
    (∀ kpis : SimulationKpis, kpis.roundsCompletedTotal ≠ 0 →
      assertSimulationProgressLegacy kpis s = Except.ok ()) := by
  refine ⟨?_, ?_, ?_, ?_⟩
  · intro hb
    have ha : assertSimulationProgress s (finalHeadings s capture) =
        Except.error "Simulation produced zero work (deadlock: no resources available to perform any stage)." := by
      unfold assertSimulationProgress
      rw [if_pos ⟨hday, hb⟩]
    simp [runEngine, hval, ha]
  · intro hb
    have ha : assertSimulationProgress s (finalHeadings s capture) = Except.ok () := by
      unfold assertSimulationProgress
      rw [if_neg (fun hc => hb hc.2)]
    simp [runEngine, hval, ha]
  · intro kpis hk
    unfold assertSimulationProgressLegacy
    rw [if_pos ⟨hday, hk⟩]
  · intro kpis hk
    unfold assertSimulationProgressLegacy
    rw [if_neg (fun hc => hk hc.2)]

/-- C5 witness: the concrete zero-drill-rig scenario deadlocks: the run
does zero work and the engine raises the hard error. -/
theorem c5_witness :
    runEngine sDead false = Except.error "Simulation produced zero work (deadlock: no resources available to perform any stage)." :=
  (c5_deadlock_detection sDead false (by rfl) (by decide)).1 (by rfl)

theorem ResourcePool_dec_get_same (p : ResourcePool) (k : ResourceKey) :
    (p.dec k).get k = p.get k - 1 := by
  cases k <;> rfl

theorem ResourcePool_dec_get_other (p : ResourcePool) (k0 k : ResourceKey) (hne : k ≠ k0) :
    (p.dec k0).get k = p.get k := by
  cases k0 <;> cases k <;> first | rfl | exact absurd rfl hne

/-- Per-step resource accounting: a heading that progresses on a work
stage requiring kind `k` consumed exactly one available unit of `k`
(which must have been positive); in every other case the pool's count
for `k` is untouched. -/
theorem advance_pool_spec (h : HeadingState) (nowMin tickMin : Int) (s : Scenario)
    (avail : ResourcePool) (k : ResourceKey) :
    ((advanceHeadingByTick h nowMin tickMin s avail).1 = true ∧
        resourceForWorkStage h.stage s = some k →
      0 < avail.get k ∧
        (advanceHeadingByTick h nowMin tickMin s avail).2.2.get k = avail.get k - 1) ∧
    (¬((advanceHeadingByTick h nowMin tickMin s avail).1 = true ∧
        resourceForWorkStage h.stage s = some k) →
      (advanceHeadingByTick h nowMin tickMin s avail).2.2.get k = avail.get k) := by
  unfold advanceHeadingByTick
  split
  · rename_i hstage
    constructor
    · rintro ⟨-, hk⟩
      rw [hstage] at hk
      simp [resourceForWorkStage] at hk
    · intro _; rfl
  · split
    · rename_i hstage
      constructor
      · rintro ⟨-, hk⟩
        rw [hstage] at hk
        simp [resourceForWorkStage] at hk
      · intro _; rfl
    · split
      · rename_i hstage
        constructor
        · rintro ⟨-, hk⟩
          rw [hstage] at hk
          simp [resourceForWorkStage] at hk
        · intro _; rfl
      · split
        · rename_i k0 heq
          split
          · rename_i hle
            constructor
            · rintro ⟨hfalse, -⟩
              simp at hfalse
            · intro _; rfl
          · rename_i hgt
            constructor
            · rintro ⟨-, hk⟩
              rw [heq] at hk
              rw [Option.some.injEq] at hk
              subst hk
              exact ⟨by omega, ResourcePool_dec_get_same avail _⟩
            · intro hn
              rcases eq_or_ne k k0 with he | hne
              · subst he
                exact absurd ⟨rfl, heq⟩ hn
              · exact ResourcePool_dec_get_other avail k0 k hne
        · rename_i heq
          constructor
          · rintro ⟨-, hk⟩
            rw [heq] at hk
            cases hk
          · intro _; rfl

theorem processRecs_pool (s : Scenario) (capture : Bool) (nowMin tickMin : Int) :
    ∀ (recs : List TickRec) (avail : ResourcePool) (k : ResourceKey),
      (holdersCount s nowMin tickMin recs avail k : Int) +
          ((processRecs s capture nowMin tickMin recs avail).2.1).get k = avail.get k ∧
      (0 ≤ avail.get k →
        0 ≤ ((processRecs s capture nowMin tickMin recs avail).2.1).get k) := by
  intro recs
  induction recs with
  | nil =>
    intro avail k
    constructor
    · simp [holdersCount, processRecs]
    · intro h0; simpa [processRecs] using h0
  | cons r rest ih =>
    intro avail k
    rw [holdersCount, processRecs]
    dsimp only
    rw [processHeading_avail]
    have hspec := advance_pool_spec r.h nowMin tickMin s avail k
    have hrest := ih (advanceHeadingByTick r.h nowMin tickMin s avail).2.2 k
    by_cases hc : (advanceHeadingByTick r.h nowMin tickMin s avail).1 = true ∧
        resourceForWorkStage r.h.stage s = some k
    · rcases hspec.1 hc with ⟨hpos, hgetd⟩
      rw [if_pos hc]
      constructor
      · push_cast
        rw [hgetd] at hrest
        omega
      · intro _
        exact hrest.2 (by omega)
    · have hgets := hspec.2 hc
      rw [if_neg hc]
      constructor
      · push_cast
        rw [hgets] at hrest
        omega
      · intro h0
        rw [hgets] at hrest
        exact hrest.2 h0

theorem holdersCount_le (s : Scenario) (nowMin tickMin : Int) (recs : List TickRec)
    (avail : ResourcePool) (k : ResourceKey) (h0 : 0 ≤ avail.get k) :
    (holdersCount s nowMin tickMin recs avail k : Int) ≤ avail.get k := by
  have h := processRecs_pool s false nowMin tickMin recs avail k
  have h1 := h.1
  have h2 := h.2 h0
  omega

theorem makeResourcePool_nonneg (s : Scenario) (k : ResourceKey) :
    0 ≤ (makeResourcePool s).get k := by
  unfold makeResourcePool clampNonNegInt
  split <;> cases k <;> simp [ResourcePool.get]

/-- C7: within one simulated tick, the number of headings that progress
while holding a unit of resource kind `k` never exceeds the per-tick
pool's capacity for `k`; with the jumbo-bolting flag set, SUPPORT draws
from the drill-rig pool (as DRILL always does), so DRILL and SUPPORT
holders together are bounded by the drill-rig capacity. -/
theorem c7_resource_exclusivity (s : Scenario) (nowMin tickMin : Int)
    (recs : List TickRec) (k : ResourceKey) :
    (holdersCount s nowMin tickMin recs (makeResourcePool s) k : Int) ≤
        (makeResourcePool s).get k ∧
    (isJumboBoltingEnabled s = true →
      resourceForWorkStage GanttStage.SUPPORT s = some ResourceKey.drillRigs ∧
      resourceForWorkStage GanttStage.DRILL s = some ResourceKey.drillRigs) := by
  constructor
  · exact holdersCount_le s nowMin tickMin recs (makeResourcePool s) k
      (makeResourcePool_nonneg s k)
  · intro hj
    exact ⟨by simp [resourceForWorkStage, hj], by simp [resourceForWorkStage]⟩

/-- C7 witness: the exclusivity bound and the jumbo-bolting resource
mapping instantiated on the concrete jumbo-bolting scenario. -/
theorem c7_witness :
    (holdersCount sJumbo 0 5 (initRecs sJumbo true) (makeResourcePool sJumbo)
        ResourceKey.drillRigs : Int) ≤ (makeResourcePool sJumbo).get ResourceKey.drillRigs ∧
    resourceForWorkStage GanttStage.SUPPORT sJumbo = some ResourceKey.drillRigs := by
  have h := c7_resource_exclusivity sJumbo 0 5 (initRecs sJumbo true) ResourceKey.drillRigs
  exact ⟨h.1, (h.2 rfl).1⟩

/-- C10: when the `resources` object is absent, the per-tick pool
defaults drillRigs, lhds and supportCrews to the number of headings but
blastCrews to 1; CHARGE requires a blastCrews unit, so at most one
heading can make charging progress per tick in such a scenario. -/
theorem c10_default_resources (s : Scenario) (hres : s.resources = none)
    (hpos : 0 < s.headings) :
    makeResourcePool s =
      { drillRigs := s.headings, lhds := s.headings, supportCrews := s.headings, blastCrews := 1 } ∧
    resourceForWorkStage GanttStage.CHARGE s = some ResourceKey.blastCrews ∧
    (∀ (nowMin tickMin : Int) (recs : List TickRec),
      (holdersCount s nowMin tickMin recs (makeResourcePool s) ResourceKey.blastCrews : Int) ≤ 1) := by
  have hpool : makeResourcePool s =
      { drillRigs := s.headings, lhds := s.headings, supportCrews := s.headings, blastCrews := 1 } := by
    simp [makeResourcePool, hres, clampNonNegInt, max_eq_right hpos.le]
  refine ⟨hpool, by simp [resourceForWorkStage], ?_⟩
  intro nowMin tickMin recs
  have h := holdersCount_le s nowMin tickMin recs (makeResourcePool s) ResourceKey.blastCrews
    (makeResourcePool_nonneg s ResourceKey.blastCrews)
  have hone : (makeResourcePool s).get ResourceKey.blastCrews = 1 := by
    rw [hpool]
    rfl
  rw [hone] at h
  exact h

/-- C10 witness: the defaults and the one-charging-heading bound on the
concrete default-resource scenario `s9`. -/
theorem c10_witness :
    makeResourcePool s9 =
      { drillRigs := s9.headings, lhds := s9.headings, supportCrews := s9.headings, blastCrews := 1 } ∧
    (holdersCount s9 0 60 (initRecs s9 false) (makeResourcePool s9) ResourceKey.blastCrews : Int) ≤ 1 := by
  have h := c10_default_resources s9 rfl (by decide)
  exact ⟨h.1, h.2.2 0 60 (initRecs s9 false)⟩

/-- A work-stage heading that cannot acquire its required resource is
left completely unchanged, as is the pool, and the step reports no
progress. -/
theorem advance_blocked (s : Scenario) (nowMin tickMin : Int) (h : HeadingState)
    (avail : ResourcePool) (k : ResourceKey)
    (hk : resourceForWorkStage h.stage s = some k) (hle : avail.get k ≤ 0) :
    advanceHeadingByTick h nowMin tickMin s avail = (false, h, avail) := by
  have hb : ¬(h.stage = GanttStage.BLAST_READY) := by
    intro he; rw [he] at hk; simp [resourceForWorkStage] at hk
  have hre : ¬(h.stage = GanttStage.REENTRY) := by
    intro he; rw [he] at hk; simp [resourceForWorkStage] at hk
  have hwb : ¬(h.stage = GanttStage.WAITING_FOR_BLAST) := by
    intro he; rw [he] at hk; simp [resourceForWorkStage] at hk
  unfold advanceHeadingByTick
  rw [if_neg hb, if_neg hre, if_neg hwb, hk]
  dsimp only
  rw [if_pos hle]

/-- C6: if a heading in a work stage cannot acquire one unit of its
required resource kind this tick, it makes no progress: its stored state
(stage, remaining time, busy minutes, counters) and the pool are
unchanged, and the timeline bookkeeping reports it as
`WAITING_FOR_RESOURCE` for exactly that kind; concretely, with 2 headings
sharing 1 drill rig and both in DRILL, the first tick advances exactly
one heading's drilling while the other is recorded waiting for the rig. -/
theorem c6_no_resource_no_progress (s : Scenario) (nowMin tickMin : Int)
    (h : HeadingState) (r : TickRec) (avail : ResourcePool) (k : ResourceKey) (o : OpenIv) :
    (resourceForWorkStage h.stage s = some k → avail.get k ≤ 0 →
      advanceHeadingByTick h nowMin tickMin s avail = (false, h, avail)) ∧
    (resourceForWorkStage r.h.stage s = some k → avail.get k ≤ 0 → r.openIv = some o →
      (processHeading s true nowMin tickMin r avail).1.h = r.h ∧
      (processHeading s true nowMin tickMin r avail).2.1 = avail ∧
      ((processHeading s true nowMin tickMin r avail).1.openIv.map
          (fun o2 => (o2.stage, o2.waitFor))) =
        some (GanttStage.WAITING_FOR_RESOURCE, some k)) ∧
    ((processRecs s6 true 0 5 (initRecs s6 true) (makeResourcePool s6)).1.map
        (fun r2 => (r2.h.remainingMin, r2.h.busyMin,
          r2.openIv.map (fun o2 => (o2.stage, o2.waitFor))))) =
      [(175, 5, some (GanttStage.DRILL, none)),
       (180, 0, some (GanttStage.WAITING_FOR_RESOURCE, some ResourceKey.drillRigs))] := by
  refine ⟨advance_blocked s nowMin tickMin h avail k, ?_, by rfl⟩
  intro hk hle hopen
  have hadv := advance_blocked s nowMin tickMin r.h avail k hk hle
  by_cases hc : GanttStage.WAITING_FOR_RESOURCE = o.stage ∧ (some k : Option ResourceKey) = o.waitFor
  · have hcond : ¬(GanttStage.WAITING_FOR_RESOURCE ≠ o.stage ∨
        ((some k : Option ResourceKey) ≠ o.waitFor)) := by
      push_neg
      exact hc
    simp [processHeading, hadv, hopen, hk, hcond, ← hc.1, ← hc.2]
    exact ⟨o, by simp [closeAndOpen, hcond], hc.1.symm, hc.2.symm⟩
  · have hcond : GanttStage.WAITING_FOR_RESOURCE ≠ o.stage ∨
        ((some k : Option ResourceKey) ≠ o.waitFor) := by
      by_contra hn
      push_neg at hn
      exact hc hn
    simp [processHeading, hadv, hopen, hk, hcond]
    exact ⟨{ stage := GanttStage.WAITING_FOR_RESOURCE, startMin := nowMin + tickMin,
             waitFor := some k }, by simp [closeAndOpen, hcond], rfl, rfl⟩

/-- C6 witness: the frame property instantiated on a concrete drilling
heading facing an exhausted drill-rig pool. -/
theorem c6_witness :
    resourceForWorkStage hDR.stage s6 = some ResourceKey.drillRigs ∧
    advanceHeadingByTick hDR 0 5 s6 pool0 = (false, hDR, pool0) := by
  have h := c6_no_resource_no_progress s6 0 5 hDR
    { h := hDR, openIv := some { stage := GanttStage.DRILL, startMin := 0, waitFor := none } }
    pool0 ResourceKey.drillRigs { stage := GanttStage.DRILL, startMin := 0, waitFor := none }
  exact ⟨rfl, h.1 rfl (by decide)⟩

theorem onBlastReady_id (s : Scenario) (h : HeadingState) (nowMin tickMin : Int) :
    (onBlastReady h nowMin tickMin s).id = h.id := by
  unfold onBlastReady
  dsimp only
  repeat' split
  all_goals rfl

theorem gateToMuck_id (s : Scenario) (h : HeadingState) (tickMin : Int) :
    (gateToMuck h tickMin s).id = h.id := by
  unfold gateToMuck
  dsimp only
  repeat' split
  all_goals rfl

theorem advanceWorkStage_id (s : Scenario) (h : HeadingState) (tickMin : Int) :
    (advanceWorkStage h tickMin s).id = h.id := by
  unfold advanceWorkStage completeRound
  dsimp only
  repeat' split
  all_goals rfl

theorem advanceHeadingByTick_id (s : Scenario) (h : HeadingState) (nowMin tickMin : Int)
    (avail : ResourcePool) :
    (advanceHeadingByTick h nowMin tickMin s avail).2.1.id = h.id := by
  unfold advanceHeadingByTick
  repeat' split
  all_goals
    simp [onBlastReady_id, gateToMuck_id, advanceWorkStage_id]

theorem spansExactly_snoc (hid : Nat) (st : GanttStage) (w : Option ResourceKey) :
    ∀ (l : List GanttInterval) (lo m e : Int),
      spansExactly lo m l = true → m ≤ e →
      spansExactly lo e (l ++ [{ headingId := hid, stage := st, startMin := m, endMin := e, waitFor := w }]) = true := by
  intro l
  induction l with
  | nil =>
    intro lo m e h1 h2
    simp [spansExactly] at h1
    subst h1
    simp [spansExactly, h2]
  | cons iv rest ih =>
    intro lo m e h1 h2
    rw [spansExactly] at h1
    rw [Bool.and_eq_true] at h1
    rcases h1 with ⟨hhead, htail⟩
    rw [List.cons_append, spansExactly, Bool.and_eq_true]
    exact ⟨hhead, ih iv.endMin m e htail h2⟩

theorem ivsFor_append (hid : Nat) (a b : List GanttInterval) :
    ivsFor hid (a ++ b) = ivsFor hid a ++ ivsFor hid b := by
  unfold ivsFor
  exact List.filter_append a b

theorem ivsFor_all_mine (hid : Nat) :
    ∀ (l : List GanttInterval), (∀ iv ∈ l, iv.headingId = hid) → ivsFor hid l = l := by
  intro l
  induction l with
  | nil => intro _; rfl
  | cons iv rest ih =>
    intro hall
    unfold ivsFor at *
    rw [List.filter_cons]
    have : (iv.headingId == hid) = true := by
      simp [hall iv (by simp)]
    rw [if_pos this, ih (fun x hx => hall x (by simp [hx]))]

theorem ivsFor_none_mine (hid : Nat) :
    ∀ (l : List GanttInterval), (∀ iv ∈ l, iv.headingId ≠ hid) → ivsFor hid l = [] := by
  intro l
  induction l with
  | nil => intro _; rfl
  | cons iv rest ih =>
    intro hall
    unfold ivsFor at *
    rw [List.filter_cons]
    have : ¬((iv.headingId == hid) = true) := by
      simp [hall iv (by simp)]
    rw [if_neg this]
    exact ih (fun x hx => hall x (by simp [hx]))

theorem timelineInv_extend (acc extra : List GanttInterval) (bound : Int) (r : TickRec)
    (hinv : timelineInv acc bound r)
    (hextra : ∀ iv ∈ extra, iv.headingId ≠ r.h.id) :
    timelineInv (acc ++ extra) bound r := by
  rcases hinv with ⟨o, ho, hb, hc⟩
  refine ⟨o, ho, hb, ?_⟩
  rw [ivsFor_append, ivsFor_none_mine r.h.id extra hextra, List.append_nil]
  exact hc

theorem timelineInv_mono (acc : List GanttInterval) (b1 b2 : Int) (r : TickRec)
    (hinv : timelineInv acc b1 r) (hle : b1 ≤ b2) : timelineInv acc b2 r := by
  rcases hinv with ⟨o, ho, hb, hc⟩
  exact ⟨o, ho, le_trans hb hle, hc⟩

theorem closeAndOpen_timeline (hid : Nat) (cur : OpenIv) (displayStage : GanttStage)
    (nextWaitFor : Option ResourceKey) (nowMin tickMin : Int) (htick : 0 < tickMin)
    (hb : cur.startMin ≤ nowMin) (acc : List GanttInterval)
    (hchain : spansExactly 0 cur.startMin (ivsFor hid acc) = true) :
    (∀ iv ∈ (closeAndOpen hid cur displayStage nextWaitFor nowMin tickMin).2,
      iv.headingId = hid) ∧
    ∃ o : OpenIv,
      (closeAndOpen hid cur displayStage nextWaitFor nowMin tickMin).1 = some o ∧
      o.startMin ≤ nowMin + tickMin ∧
      spansExactly 0 o.startMin
        (ivsFor hid (acc ++ (closeAndOpen hid cur displayStage nextWaitFor nowMin tickMin).2)) = true := by
  unfold closeAndOpen
  split
  · constructor
    · intro iv hiv
      rw [List.mem_singleton] at hiv
      subst hiv
      rfl
    · refine ⟨_, rfl, le_refl _, ?_⟩
      dsimp only
      rw [ivsFor_append]
      rw [ivsFor_all_mine hid
        [{ headingId := hid, stage := cur.stage, startMin := cur.startMin,
           endMin := nowMin + tickMin, waitFor := cur.waitFor }]
        (by intro iv hiv; rw [List.mem_singleton] at hiv; subst hiv; rfl)]
      exact spansExactly_snoc hid cur.stage cur.waitFor (ivsFor hid acc) 0 cur.startMin
        (nowMin + tickMin) hchain (by omega)
  · constructor
    · intro iv hiv
      simp at hiv
    · refine ⟨cur, rfl, by omega, ?_⟩
      rw [List.append_nil]
      exact hchain

theorem processHeading_timeline (s : Scenario) (nowMin tickMin : Int) (r : TickRec)
    (avail : ResourcePool) (htick : 0 < tickMin) (o : OpenIv) (hopen : r.openIv = some o)
    (hb : o.startMin ≤ nowMin) (acc : List GanttInterval)
    (hchain : spansExactly 0 o.startMin (ivsFor r.h.id acc) = true) :
    (processHeading s true nowMin tickMin r avail).1.h.id = r.h.id ∧
    (∀ iv ∈ (processHeading s true nowMin tickMin r avail).2.2, iv.headingId = r.h.id) ∧
    timelineInv (acc ++ (processHeading s true nowMin tickMin r avail).2.2) (nowMin + tickMin)
      (processHeading s true nowMin tickMin r avail).1 := by
  have hid := advanceHeadingByTick_id s r.h nowMin tickMin avail
  have hco := closeAndOpen_timeline r.h.id o
    (if (advanceHeadingByTick r.h nowMin tickMin s avail).1 = true
      then (advanceHeadingByTick r.h nowMin tickMin s avail).2.1.stage
      else match (if (advanceHeadingByTick r.h nowMin tickMin s avail).1 = true
          then none else resourceForWorkStage r.h.stage s) with
        | some _ => GanttStage.WAITING_FOR_RESOURCE
        | none => (advanceHeadingByTick r.h nowMin tickMin s avail).2.1.stage)
    (if (if (advanceHeadingByTick r.h nowMin tickMin s avail).1 = true
          then (advanceHeadingByTick r.h nowMin tickMin s avail).2.1.stage
          else match (if (advanceHeadingByTick r.h nowMin tickMin s avail).1 = true
              then none else resourceForWorkStage r.h.stage s) with
            | some _ => GanttStage.WAITING_FOR_RESOURCE
            | none => (advanceHeadingByTick r.h nowMin tickMin s avail).2.1.stage) =
          GanttStage.WAITING_FOR_RESOURCE
      then (if (advanceHeadingByTick r.h nowMin tickMin s avail).1 = true
          then none else resourceForWorkStage r.h.stage s)
      else none)
    nowMin tickMin htick hb acc hchain
  unfold processHeading
  rw [hopen]
  dsimp only
  rw [if_pos (rfl : true = true)]
  rcases hco with ⟨hids, o2, ho2, hb2, hc2⟩
  refine ⟨hid, hids, ?_⟩
  refine ⟨o2, ?_, hb2, ?_⟩
  · dsimp only
    exact ho2
  · dsimp only
    rw [hid]
    exact hc2

theorem processRecs_timeline (s : Scenario) (nowMin tickMin : Int) (htick : 0 < tickMin) :
    ∀ (recs : List TickRec) (avail : ResourcePool) (acc : List GanttInterval),
      (recsIds recs).Nodup →
      (∀ r ∈ recs, timelineInv acc nowMin r) →
      recsIds (processRecs s true nowMin tickMin recs avail).1 = recsIds recs ∧
      (∀ iv ∈ (processRecs s true nowMin tickMin recs avail).2.2, iv.headingId ∈ recsIds recs) ∧
      (∀ r' ∈ (processRecs s true nowMin tickMin recs avail).1,
        timelineInv (acc ++ (processRecs s true nowMin tickMin recs avail).2.2)
          (nowMin + tickMin) r') := by
  intro recs
  induction recs with
  | nil =>
    intro avail acc _ _
    refine ⟨rfl, ?_, ?_⟩
    · intro iv hiv
      simp [processRecs] at hiv
    · intro r' hr'
      simp [processRecs] at hr'
  | cons r rest ih =>
    intro avail acc hnodup hall
    rw [recsIds, List.map_cons, List.nodup_cons] at hnodup
    rcases hnodup with ⟨hnotin, hnodupRest⟩
    rcases hall r (by simp) with ⟨o, hopen, hb, hchain⟩
    have hstep := processHeading_timeline s nowMin tickMin r avail htick o hopen hb acc hchain
    rcases hstep with ⟨hid1, hpushIds, hinv1⟩
    have hallRest : ∀ rr ∈ rest,
        timelineInv (acc ++ (processHeading s true nowMin tickMin r avail).2.2) nowMin rr := by
      intro rr hrr
      refine timelineInv_extend acc _ nowMin rr (hall rr (by simp [hrr])) ?_
      intro iv hiv
      rw [hpushIds iv hiv]
      intro heq
      exact hnotin (by rw [heq]; exact List.mem_map_of_mem (fun x => x.h.id) hrr)
    have hrest := ih (processHeading s true nowMin tickMin r avail).2.1
      (acc ++ (processHeading s true nowMin tickMin r avail).2.2) hnodupRest hallRest
    rcases hrest with ⟨hidsRest, hivIdsRest, hinvRest⟩
    rw [processRecs]
    dsimp only
    refine ⟨?_, ?_, ?_⟩
    · rw [recsIds, List.map_cons, hid1]
      rw [recsIds] at hidsRest
      rw [hidsRest]
      rfl
    · intro iv hiv
      rw [List.mem_append] at hiv
      rcases hiv with hiv | hiv
      · rw [recsIds, List.map_cons, hpushIds iv hiv]
        exact List.mem_cons_self _ _
      · rw [recsIds, List.map_cons]
        exact List.mem_cons_of_mem _ (hivIdsRest iv hiv)
    · intro r' hr'
      rw [List.mem_cons] at hr'
      rcases hr' with he | hm
      · subst he
        rw [← List.append_assoc]
        refine timelineInv_extend _ _ _ _ hinv1 ?_
        intro iv hiv
        rw [hid1]
        intro heq
        exact hnotin (by rw [← heq]; exact hivIdsRest iv hiv)
      · have := hinvRest r' hm
        rw [List.append_assoc] at this
        exact this

theorem runLoop_timeline (s : Scenario) (htick : 0 < s.tickMin) :
    ∀ (n k : Nat) (recs : List TickRec) (acc : List GanttInterval),
      (recsIds recs).Nodup →
      (∀ r ∈ recs, timelineInv acc ((k : Int) * s.tickMin) r) →
      recsIds (runLoop s true k n recs).1 = recsIds recs ∧
      (∀ r' ∈ (runLoop s true k n recs).1,
        timelineInv (acc ++ (runLoop s true k n recs).2) (((k + n : Nat) : Int) * s.tickMin) r') := by
  intro n
  induction n with
  | zero =>
    intro k recs acc hnodup hall
    rw [runLoop]
    refine ⟨rfl, ?_⟩
    intro r' hr'
    rw [List.append_nil]
    have : ((k + 0 : Nat) : Int) * s.tickMin = (k : Int) * s.tickMin := by norm_num
    rw [this]
    exact hall r' hr'
  | succ n ih =>
    intro k recs acc hnodup hall
    have hstep := processRecs_timeline s ((k : Int) * s.tickMin) s.tickMin htick recs
      (makeResourcePool s) acc hnodup hall
    rcases hstep with ⟨hids, _, hinvs⟩
    have hinvs' : ∀ r' ∈ (processRecs s true ((k : Int) * s.tickMin) s.tickMin recs (makeResourcePool s)).1,
        timelineInv (acc ++ (processRecs s true ((k : Int) * s.tickMin) s.tickMin recs (makeResourcePool s)).2.2)
          (((k + 1 : Nat) : Int) * s.tickMin) r' := by
      intro r' hr'
      refine timelineInv_mono _ _ _ _ (hinvs r' hr') ?_
      push_cast
      ring_nf
      omega
    have hnodup' : (recsIds (processRecs s true ((k : Int) * s.tickMin) s.tickMin recs (makeResourcePool s)).1).Nodup := by
      rw [hids]; exact hnodup
    have hrest := ih (k + 1)
      (processRecs s true ((k : Int) * s.tickMin) s.tickMin recs (makeResourcePool s)).1
      (acc ++ (processRecs s true ((k : Int) * s.tickMin) s.tickMin recs (makeResourcePool s)).2.2)
      hnodup' hinvs'
    rcases hrest with ⟨hids2, hinv2⟩
    rw [runLoop]
    dsimp only
    constructor
    · rw [hids2, hids]
    · intro r' hr'
      have := hinv2 r' hr'
      rw [List.append_assoc] at this
      have harith : ((k + 1 + n : Nat) : Int) * s.tickMin = ((k + (n + 1) : Nat) : Int) * s.tickMin := by
        push_cast
        ring
      rw [harith] at this
      exact this

theorem initRecs_ids (s : Scenario) (capture : Bool) :
    recsIds (initRecs s capture) = (List.range s.headings.toNat).map (fun i => i + 1) := by
  unfold recsIds initRecs
  rw [List.map_map]
  rfl

theorem initRecs_nodup (s : Scenario) (capture : Bool) :
    (recsIds (initRecs s capture)).Nodup := by
  rw [initRecs_ids]
  exact List.Nodup.map (fun a b hab => by omega) (List.nodup_range _)

theorem initRecs_timelineInv (s : Scenario) (bound : Int) (hb : 0 ≤ bound) :
    ∀ r ∈ initRecs s true, timelineInv [] bound r := by
  intro r hr
  unfold initRecs at hr
  rcases List.mem_map.mp hr with ⟨i, _, he⟩
  subst he
  refine ⟨{ stage := (newHeading (i + 1) s).stage, startMin := 0, waitFor := none }, rfl, hb, ?_⟩
  rfl

theorem flushOpen_ids (simMinutes : Int) (recs : List TickRec) :
    ∀ iv ∈ flushOpen simMinutes recs, iv.headingId ∈ recsIds recs := by
  intro iv hiv
  unfold flushOpen at hiv
  rcases List.mem_filterMap.mp hiv with ⟨r, hr, heq⟩
  rcases Option.map_eq_some'.mp heq with ⟨o, _, he⟩
  subst he
  exact List.mem_map_of_mem (fun x => x.h.id) hr

theorem flush_spans (simMinutes : Int) :
    ∀ (recs : List TickRec) (acc : List GanttInterval),
      (recsIds recs).Nodup →
      (∀ r ∈ recs, timelineInv acc simMinutes r) →
      ∀ r ∈ recs,
        spansExactly 0 simMinutes (ivsFor r.h.id (acc ++ flushOpen simMinutes recs)) = true := by
  intro recs
  induction recs with
  | nil =>
    intro acc _ _ r hr
    simp at hr
  | cons r rest ih =>
    intro acc hnodup hall r' hr'
    rw [recsIds, List.map_cons, List.nodup_cons] at hnodup
    rcases hnodup with ⟨hnotin, hnodupRest⟩
    rcases hall r (by simp) with ⟨o, hopen, hb, hchain⟩
    have hflush : flushOpen simMinutes (r :: rest) =
        { headingId := r.h.id, stage := o.stage, startMin := o.startMin, endMin := simMinutes, waitFor := o.waitFor } :: flushOpen simMinutes rest := by
      unfold flushOpen
      rw [List.filterMap_cons]
      rw [hopen]
      rfl
    rw [hflush]
    rcases List.mem_cons.mp hr' with he | hm
    · subst he
      rw [List.append_cons, ivsFor_append, ivsFor_append]
      have hrest0 : ivsFor r'.h.id (flushOpen simMinutes rest) = [] := by
        refine ivsFor_none_mine _ _ ?_
        intro iv hiv
        intro heq
        exact hnotin (by rw [← heq]; exact flushOpen_ids simMinutes rest iv hiv)
      rw [hrest0, List.append_nil]
      rw [ivsFor_all_mine r'.h.id [{ headingId := r'.h.id, stage := o.stage, startMin := o.startMin, endMin := simMinutes, waitFor := o.waitFor }] (by intro iv hiv; rw [List.mem_singleton] at hiv; subst hiv; rfl)]
      exact spansExactly_snoc r'.h.id o.stage o.waitFor (ivsFor r'.h.id acc) 0 o.startMin simMinutes hchain hb
    · have hallRest : ∀ rr ∈ rest,
          timelineInv (acc ++ [{ headingId := r.h.id, stage := o.stage, startMin := o.startMin, endMin := simMinutes, waitFor := o.waitFor }]) simMinutes rr := by
        intro rr hrr
        refine timelineInv_extend acc _ simMinutes rr (hall rr (by simp [hrr])) ?_
        intro iv hiv
        rw [List.mem_singleton] at hiv
        subst hiv
        intro heq
        dsimp only at heq
        exact hnotin (by rw [heq]; exact List.mem_map_of_mem (fun x => x.h.id) hrr)
      have hres := ih (acc ++ [{ headingId := r.h.id, stage := o.stage, startMin := o.startMin, endMin := simMinutes, waitFor := o.waitFor }]) hnodupRest hallRest r' hm
      rw [List.append_assoc, List.singleton_append] at hres
      exact hres

theorem validateScenario_ok_pos (s : Scenario) (h : validateScenario s = Except.ok ()) :
    0 < s.simDays ∧ 0 < s.tickMin ∧ 0 < s.headings := by
  unfold validateScenario at h
  split at h
  · exact absurd h (by simp)
  · split at h
    · exact absurd h (by simp)
    · split at h
      · exact absurd h (by simp)
      · split at h
        · exact absurd h (by simp)
        · refine ⟨by omega, by omega, by omega⟩

theorem numTicks_mul (s : Scenario) (htick : 0 < s.tickMin) (hsim : 0 ≤ simMinutesOf s)
    (hdvd : s.tickMin ∣ simMinutesOf s) :
    (numTicks s : Int) * s.tickMin = simMinutesOf s := by
  obtain ⟨c, hc⟩ := hdvd
  have hc0 : 0 ≤ c := by
    by_contra hneg
    push_neg at hneg
    have hlt : s.tickMin * c < 0 := mul_neg_of_pos_of_neg htick hneg
    rw [← hc] at hlt
    omega
  have hT : ((s.tickMin.toNat : Int)) = s.tickMin := Int.toNat_of_nonneg (by omega)
  have hQ : ((c.toNat : Int)) = c := Int.toNat_of_nonneg hc0
  have hM : (((simMinutesOf s).toNat : Int)) = simMinutesOf s := Int.toNat_of_nonneg hsim
  have hMeq : (simMinutesOf s).toNat = s.tickMin.toNat * c.toNat := by
    have : (((simMinutesOf s).toNat : Int)) = ((s.tickMin.toNat * c.toNat : Nat) : Int) := by
      push_cast
      rw [hT, hQ, hM, hc]
    exact_mod_cast this
  have hTpos : 0 < s.tickMin.toNat := by omega
  have hnum : numTicks s = c.toNat := by
    unfold numTicks
    rw [hMeq]
    have h1 : s.tickMin.toNat * c.toNat + s.tickMin.toNat - 1 =
        s.tickMin.toNat * c.toNat + (s.tickMin.toNat - 1) := by omega
    rw [h1, Nat.mul_add_div hTpos, Nat.div_eq_of_lt (by omega), Nat.add_zero]
  rw [hnum, hQ, hc]
  ring

/-- C8 counterexample: for the accepted scenario `sC8` (tick = 1000 does
not divide the 1440-minute horizon, and the drill stage changes on the
final tick), the captured timeline of heading 1 does not span
`[0, horizon)`: its final interval starts at minute 2000 and ends at
1440. -/
theorem c8_counterexample :
    (runEngine sC8 true).toOption.isSome = true ∧
    spansExactly 0 ((runEngine sC8 true).toOption.getD emptyRunResult).simMinutes
      (ivsFor 1 ((runEngine sC8 true).toOption.getD emptyRunResult).intervals) = false := by
  exact ⟨rfl, rfl⟩

/-- C8 (amended): whenever the engine returns a detailed result and the
tick length divides the horizon in minutes, every heading's recorded
intervals are contiguous, non-overlapping and span exactly
`[0, horizon)`; with a non-dividing tick the recorded boundaries are
quantized to whole ticks and can overshoot the horizon. -/
theorem c8_amended_timeline_spans (s : Scenario) (res : RunResult)
    (hres : runEngine s true = Except.ok res)
    (hdvd : s.tickMin ∣ simMinutesOf s) :
    ∀ i : Nat, i < s.headings.toNat →
      spansExactly 0 res.simMinutes (ivsFor (i + 1) res.intervals) = true := by
  have hval : validateScenario s = Except.ok () := by
    unfold runEngine at hres
    cases hv : validateScenario s with
    | error e => rw [hv] at hres; exact absurd hres (by simp)
    | ok u => cases u; rfl
  obtain ⟨hday, htick, hheads⟩ := validateScenario_ok_pos s hval
  have hsim : 0 ≤ simMinutesOf s := by
    unfold simMinutesOf
    positivity
  have hfields : res.simMinutes = simMinutesOf s ∧ res.intervals = engineIntervals s true := by
    unfold runEngine at hres
    rw [hval] at hres
    split at hres
    · exact absurd hres (by simp)
    · split at hres
      · exact absurd hres (by simp)
      · rw [Except.ok.injEq] at hres
        subst hres
        exact ⟨rfl, rfl⟩
  rcases hfields with ⟨hsm, hiv⟩
  have hinit : ∀ r ∈ initRecs s true, timelineInv [] ((0 : Int) * s.tickMin) r := by
    have := initRecs_timelineInv s ((0 : Int) * s.tickMin) (by simp)
    exact this
  have hloop := runLoop_timeline s htick (numTicks s) 0 (initRecs s true) []
    (initRecs_nodup s true)
    (by intro r hr; exact hinit r hr)
  rcases hloop with ⟨hids, hinvs⟩
  have hbound : (((0 + numTicks s : Nat) : Int) * s.tickMin) = simMinutesOf s := by
    rw [Nat.zero_add]
    exact numTicks_mul s htick hsim hdvd
  have hinvs' : ∀ r' ∈ (simCore s true).1,
      timelineInv (simCore s true).2 (simMinutesOf s) r' := by
    intro r' hr'
    have hx := hinvs r' hr'
    rw [hbound] at hx
    unfold simCore
    simpa using hx
  have hnodup' : (recsIds (simCore s true).1).Nodup := by
    unfold simCore
    rw [hids]
    exact initRecs_nodup s true
  have hspans := flush_spans (simMinutesOf s) (simCore s true).1 (simCore s true).2
    hnodup' hinvs'
  intro i hi
  have hmem : (i + 1) ∈ recsIds (simCore s true).1 := by
    unfold simCore
    rw [hids, initRecs_ids]
    exact List.mem_map.mpr ⟨i, List.mem_range.mpr hi, rfl⟩
  rw [recsIds] at hmem
  rcases List.mem_map.mp hmem with ⟨r, hr, hridem⟩
  have hfinal := hspans r hr
  rw [hridem] at hfinal
  rw [hsm, hiv]
  have hengine : engineIntervals s true =
      (simCore s true).2 ++ flushOpen (simMinutesOf s) (simCore s true).1 := by
    unfold engineIntervals
    rw [if_pos rfl]
  rw [hengine]
  exact hfinal

set_option maxRecDepth 40000 in
/-- C8 witness: the amended claim instantiated on the detailed run of the
reference scenario `s9` (tick 60 divides the 1440-minute horizon). -/
theorem c8_witness :
    spansExactly 0 ((runEngine s9 true).toOption.getD emptyRunResult).simMinutes
      (ivsFor 1 ((runEngine s9 true).toOption.getD emptyRunResult).intervals) = true :=
  c8_amended_timeline_spans s9 ((runEngine s9 true).toOption.getD emptyRunResult)
    (by rfl) ⟨24, by norm_num [simMinutesOf, s9]⟩ 0 (by decide)
